import Mathlib

/-!
Verification development for the microscope device-driver repository
(ALBA-Synchrotron/microscope).  The Python sources under
`microscope/lights/omicron.py`, `microscope/lights/cobolt.py` and
`microscope/filterwheels/thorlabs.py` are shallowly embedded below:
pure protocol logic becomes Lean functions, serial traffic becomes
explicit lists of lines (each line a `List Char`), Python floats are
modelled by rationals, and fallible operations return `Option`.
-/

namespace Microscope

/-- One serial line, as the sequence of its characters. -/
abbrev Line := List Char

/-! ### Character / numeral utilities

Models of Python's `int(s)`, `int(s, 16)`, `"%d" % n` and `float(s)`
restricted to the unsigned numerals that the drivers exchange. -/

/-- Value of a decimal digit character, `none` if not a digit. -/
def decDigitVal? (c : Char) : Option Nat :=
  if 48 ≤ c.toNat ∧ c.toNat ≤ 57 then some (c.toNat - 48) else none

/-- Value of a hexadecimal digit character, `none` if not a hex digit.
Python's `int(s, 16)` accepts both cases. -/
def hexDigitVal? (c : Char) : Option Nat :=
  if 48 ≤ c.toNat ∧ c.toNat ≤ 57 then some (c.toNat - 48)
  else if 97 ≤ c.toNat ∧ c.toNat ≤ 102 then some (c.toNat - 87)
  else if 65 ≤ c.toNat ∧ c.toNat ≤ 70 then some (c.toNat - 55)
  else none

/-- Fold a list of digit values in base `b`. -/
def digitsVal (b : Nat) (ds : List Nat) : Nat :=
  ds.foldl (fun acc d => acc * b + d) 0

/-- Model of Python `int(s)` on an unsigned decimal numeral: `none`
(a `ValueError`) when `s` is empty or has a non-digit character. -/
def parseNat? (s : Line) : Option Nat :=
  if s = [] then none
  else (s.mapM decDigitVal?).map (digitsVal 10)

/-- Model of Python `int(s, 16)` on an unsigned hex numeral: `none`
(a `ValueError`) when `s` is empty or has a non-hex character. -/
def parseHex? (s : Line) : Option Nat :=
  if s = [] then none
  else (s.mapM hexDigitVal?).map (digitsVal 16)

/-- The character for a digit value below 16 (lowercase for 10..15). -/
def digitChar (d : Nat) : Char :=
  match d with
  | 0 => '0' | 1 => '1' | 2 => '2' | 3 => '3' | 4 => '4'
  | 5 => '5' | 6 => '6' | 7 => '7' | 8 => '8' | 9 => '9'
  | 10 => 'a' | 11 => 'b' | 12 => 'c' | 13 => 'd' | 14 => 'e'
  | _ => 'f'

/-- The base-`b` digit characters of `n`, most significant first, by
repeated division; `fuel` bounds the recursion and is adequate once
`n ≤ fuel`. -/
def natToCharsAux (b : Nat) : Nat → Nat → Line
  | 0, _ => []
  | fuel + 1, n =>
    if n = 0 then [] else natToCharsAux b fuel (n / b) ++ [digitChar (n % b)]

/-- The decimal digit characters of `n`, most significant first; model of
Python `"%d" % n` for a non-negative `n`. -/
def natToChars (n : Nat) : Line :=
  if n = 0 then ['0'] else natToCharsAux 10 n n

/-- The lowercase hex digit characters of `n`, most significant first;
model of Python `hex(n)[2:]` for a non-negative `n`. -/
def natToHexChars (n : Nat) : Line :=
  if n = 0 then ['0'] else natToCharsAux 16 n n

/-- Model of Python `float(s)` on an unsigned decimal literal such as
`"0.0600"` or `"12"`: integer part, optional `.` and fraction part.
Returns `none` (a `ValueError`) on anything else. -/
def parseDec? (s : Line) : Option Rat :=
  let intPart := s.takeWhile (fun c => c ≠ '.')
  let rest := s.dropWhile (fun c => c ≠ '.')
  match rest with
  | [] => (parseNat? intPart).map (fun n => (n : Rat))
  | _ :: fracPart =>
      match parseNat? intPart, parseNat? fracPart with
      | some n, some f => some ((n : Rat) + (f : Rat) / (10 : Rat) ^ fracPart.length)
      | _, _ => none

/-! ### Omicron `OperationMode` (`microscope/lights/omicron.py`)

`bit_enabled(code, pos)` is `(int(code, 16) & (0x01 << pos)) != 0`; the
hex parse is factored out so the bitfield structs take the parsed value. -/

/-- `bit_enabled` after the `int(code, 16)` step: test bit `pos` of the
parsed value. -/
def bit_enabled (code : Nat) (pos : Nat) : Bool :=
  Nat.testBit code pos

/-- The `OperationMode` bitfield struct of `omicron.py`. -/
structure OperationMode where
  internal_clock_generator : Bool
  bias_level_release : Bool
  operating_level_release : Bool
  digital_input_release : Bool
  analog_input_release : Bool
  APC_mode : Bool
  digital_input_impedance : Bool
  analog_input_impedance : Bool
  usb_adhoc_mode : Bool
  auto_startup : Bool
  auto_powerup : Bool
deriving DecidableEq, Repr

/-- `OperationMode.__init__` after the hex parse: each field reads one bit
of the parsed pattern (note `digital_input_impedance` reads bit 11). -/
def OperationMode.ofNat (x : Nat) : OperationMode where
  internal_clock_generator := bit_enabled x 2
  bias_level_release := bit_enabled x 3
  operating_level_release := bit_enabled x 4
  digital_input_release := bit_enabled x 5
  analog_input_release := bit_enabled x 7
  APC_mode := bit_enabled x 8
  digital_input_impedance := bit_enabled x 11
  analog_input_impedance := bit_enabled x 12
  usb_adhoc_mode := bit_enabled x 13
  auto_startup := bit_enabled x 14
  auto_powerup := bit_enabled x 15

/-- `OperationMode(code)` on the raw hex characters. -/
def OperationMode.ofHex (s : Line) : Option OperationMode :=
  (parseHex? s).map OperationMode.ofNat

/-- Python `bool` as the integer 0 or 1, as used in `__int__`. -/
def boolToNat (b : Bool) : Nat := if b then 1 else 0

/-- `OperationMode.__int__`: each field shifted back to a bit position and
or-ed together (note `digital_input_impedance` is written at bit 10). -/
def OperationMode.toInt (m : OperationMode) : Nat :=
  boolToNat m.internal_clock_generator <<< 2
  ||| boolToNat m.bias_level_release <<< 3
  ||| boolToNat m.operating_level_release <<< 4
  ||| boolToNat m.digital_input_release <<< 5
  ||| boolToNat m.analog_input_release <<< 7
  ||| boolToNat m.APC_mode <<< 8
  ||| boolToNat m.digital_input_impedance <<< 10
  ||| boolToNat m.analog_input_impedance <<< 12
  ||| boolToNat m.usb_adhoc_mode <<< 13
  ||| boolToNat m.auto_startup <<< 14
  ||| boolToNat m.auto_powerup <<< 15

/-- The bit positions read by `OperationMode.__init__` (the defined bits of
the operation-mode pattern). -/
def operationModeDefinedBits : List Nat := [2, 3, 4, 5, 7, 8, 11, 12, 13, 14, 15]

/-- A pattern over the defined bits: every set bit is a defined bit. -/
def OverDefinedBits (x : Nat) : Prop :=
  ∀ pos : Nat, Nat.testBit x pos = true → pos ∈ operationModeDefinedBits


/-! ### Omicron `Status` and the cached device state -/

/-- The `Status` bitfield struct of `omicron.py` (field names as in the
source, including its `external_sensorconnectionected` spelling). -/
structure Status where
  error : Bool
  «on» : Bool
  preheating : Bool
  attention_required : Bool
  enabled_pin : Bool
  key_switch : Bool
  toggle_key : Bool
  system_power : Bool
  external_sensorconnectionected : Bool
deriving DecidableEq, Repr

/-- `Status.__init__` after the hex parse: one bit per field. -/
def Status.ofNat (x : Nat) : Status where
  error := bit_enabled x 0
  «on» := bit_enabled x 1
  preheating := bit_enabled x 2
  attention_required := bit_enabled x 4
  enabled_pin := bit_enabled x 6
  key_switch := bit_enabled x 7
  toggle_key := bit_enabled x 8
  system_power := bit_enabled x 9
  external_sensorconnectionected := bit_enabled x 13

/-- `Status(code)` on the raw hex characters. -/
def Status.ofHex (s : Line) : Option Status :=
  (parseHex? s).map Status.ofNat

/-- The cached device-state fields of `OmicronLaser` that ad-hoc frames
update: `self.status`, `self.operation_mode`, `self.temporal_power`,
`self._laser_power`. -/
structure LaserState where
  status : Status
  operation_mode : OperationMode
  temporal_power : Rat
  laser_power : Rat
deriving DecidableEq, Repr

namespace OmicronLaser

/-- `content[0]` of `_process_adhoc`: the part of the decoded payload
before the first `|` separator. -/
def adhocContent (decoded : Line) : Line :=
  decoded.takeWhile (fun c => c ≠ '|')

/-- `OmicronLaser._process_adhoc`: strip the trailing `\r`, select a cached
field by the 4-character tag and update it from `content[0]`; any other tag
only logs.  `none` models the `ValueError` Python raises when the payload
does not parse. -/
def process_adhoc (st : LaserState) (raw : Line) : Option LaserState :=
  let decoded := raw.dropLast
  let command := decoded.take 4
  let content0 := adhocContent (decoded.drop 4)
  if command = "$GAS".data then
    (Status.ofHex content0).map fun s => { st with status := s }
  else if command = "$GOM".data then
    (OperationMode.ofHex content0).map fun m => { st with operation_mode := m }
  else if command = "$TPP".data then
    (parseDec? content0).map fun p => { st with temporal_power := p }
  else if command = "$MDP".data then
    (parseDec? content0).map fun p => { st with laser_power := p }
  else
    some st

/-- `OmicronLaser._read` over a trace of inbound lines: a line starting
with `$` is handed to `_process_adhoc` and reading continues; any other
line is returned.  `none` models an exhausted trace (the caller blocks on
the timeout) or the `IndexError` on an empty line. -/
def read : LaserState → List Line → Option (LaserState × Line × List Line)
  | _, [] => none
  | st, raw :: rest =>
    match raw.head? with
    | none => none
    | some c =>
      if c = '$' then (process_adhoc st raw).bind fun st2 => read st2 rest
      else some (st, raw, rest)

/-- Apply `_process_adhoc` to each frame of a list in order. -/
def processMany (st : LaserState) (frames : List Line) : Option LaserState :=
  frames.foldlM process_adhoc st

theorem read_length_lt (st : LaserState) (lines : List Line)
    (st2 : LaserState) (raw : Line) (rest : List Line)
    (h : read st lines = some (st2, raw, rest)) :
    rest.length < lines.length := by
  induction lines generalizing st with
  | nil => simp [read] at h
  | cons l ls ih =>
    simp only [read] at h
    cases hl : l.head? with
    | none => rw [hl] at h; simp at h
    | some c =>
      rw [hl] at h
      dsimp only at h
      by_cases hc : c = '$'
      · rw [if_pos hc] at h
        cases hp : process_adhoc st l with
        | none => rw [hp] at h; simp at h
        | some st3 =>
          rw [hp] at h
          simp only [Option.some_bind] at h
          exact Nat.lt_succ_of_lt (ih st3 h)
      · rw [if_neg hc] at h
        simp only [Option.some.injEq, Prod.mk.injEq] at h
        obtain ⟨-, -, h3⟩ := h
        simp [← h3]

/-- `OmicronLaser._query` over a trace of inbound lines: send the query,
read a (synchronous) reply via `_read`, and if characters 1..3 of the
reply differ from the first 3 characters of the query, re-send the same
query and try again on the remaining trace. -/
def query (q : Line) (st : LaserState) (lines : List Line) :
    Option (LaserState × Line × List Line) :=
  match h : read st lines with
  | none => none
  | some (st2, raw, rest) =>
    if (raw.drop 1).take 3 = q.take 3 then some (st2, raw, rest)
    else query q st2 rest
termination_by lines.length
decreasing_by exact read_length_lt st lines st2 raw rest h

/-- Model of Python `int()` on a rational: truncation toward zero. -/
def pyInt (q : Rat) : Int :=
  q.num.tdiv (q.den : Int)

/-- The observable outcome of `OmicronLaser.set_level_power`: whether the
out-of-range error was logged, the computed 12-bit level, and the wire
frame written for the SLP command. -/
structure SlpResult where
  logged_error : Bool
  level : Int
  wire : Line
deriving DecidableEq, Repr

/-- `OmicronLaser.set_level_power`: a power above 1.0 only logs an error;
the level is `int(power * 0xFFF)` with no clamping, and the SLP command is
issued with that level (wire frame `?SLP<hex>|\r` via `_set`/`_ask`/
`_query`).  The hex rendering is modelled for the non-negative levels that
arise. -/
def set_level_power (power : Rat) : SlpResult where
  logged_error := decide (power > 1)
  level := pyInt (power * 0xFFF)
  wire := "?SLP".data ++ natToHexChars (pyInt (power * 0xFFF)).toNat ++ "|\r".data

end OmicronLaser

/-! ### Cobolt laser (`microscope/lights/cobolt.py`)

The device is a stream `dev : Nat → Line` of successive replies; the
unbounded `while not success` loops are embedded with explicit fuel, and
a loop that would run forever returns `none` for every fuel. -/

/-- Model of Python `"%.4f" % x` rounding (round-half-to-even on the
fourth decimal), as an integer count of ten-thousandths. -/
def roundHalfEven (q : Rat) : Int :=
  if Int.fract q < 1 / 2 then ⌊q⌋
  else if 1 / 2 < Int.fract q then ⌊q⌋ + 1
  else if ⌊q⌋ % 2 = 0 then ⌊q⌋ else ⌊q⌋ + 1

/-- Left-pad a numeral with zeros to four characters. -/
def zeroPad4 (s : Line) : Line :=
  List.replicate (4 - s.length) '0' ++ s

/-- Model of Python `"%.4f" % q` for a non-negative `q`: the value rounded
to four decimal places, printed with exactly four fraction digits. -/
def format4 (q : Rat) : Line :=
  let n := (roundHalfEven (q * 10000)).toNat
  natToChars (n / 10000) ++ ['.'] ++ zeroPad4 (natToChars (n % 10000))

namespace CoboltLaser

/-- `CoboltLaser.send` over a device stream, with fuel: each iteration
writes the command and reads one reply; a non-query succeeds at once, a
query succeeds on a non-empty reply and otherwise retries.  Returns the
reply, the next stream index and the total number of writes; `none` means
the fuel ran out, i.e. the trace never left the loop. -/
def sendFuel (cmd : Line) (dev : Nat → Line) : Nat → Nat → Nat → Option (Line × Nat × Nat)
  | 0, _, _ => none
  | fuel + 1, idx, writes =>
    let response := dev idx
    if cmd.getLast? ≠ some '?' then some (response, idx + 1, writes + 1)
    else if response ≠ [] then some (response, idx + 1, writes + 1)
    else sendFuel cmd dev fuel (idx + 1) (writes + 1)

/-- The `while not success` loop of `send` terminates on this device
stream, started at this reply index. -/
def SendTerminates (cmd : Line) (dev : Nat → Line) (idx : Nat) : Prop :=
  ∃ fuel, (sendFuel cmd dev fuel idx 0).isSome

/-- The busy-sentinel retry loop of `CoboltLaser._get_power_mw`: issue
`pa?` via `send` and retry the whole exchange while the reply is the
sentinel `b"1"`.  Returns the accepted reply, next index and total writes. -/
def getPowerLoopFuel (dev : Nat → Line) : Nat → Nat → Nat → Option (Line × Nat × Nat)
  | 0, _, _ => none
  | fuel + 1, idx, writes =>
    match sendFuel "pa?".data dev (fuel + 1) idx 0 with
    | none => none
    | some (resp, idx2, w) =>
      if resp ≠ "1".data then some (resp, idx2, writes + w)
      else getPowerLoopFuel dev fuel idx2 (writes + w)

/-- The sentinel retry loop of `_get_power_mw` terminates on this device
stream, started at this reply index. -/
def GetPowerLoopTerminates (dev : Nat → Line) (idx : Nat) : Prop :=
  ∃ fuel, (getPowerLoopFuel dev fuel idx 0).isSome

/-- `CoboltLaser._get_power_mw`: if the `l?` reply is not `b"1"` the laser
is off and the power is 0.0; otherwise loop on `pa?` past busy sentinels
and return `1000 * float(response)` (in mW), with the next stream index. -/
def get_power_mw (dev : Nat → Line) (fuel idx : Nat) : Option (Rat × Nat) :=
  match sendFuel "l?".data dev fuel idx 0 with
  | none => none
  | some (resp, idx2, _) =>
    if resp ≠ "1".data then some (0, idx2)
    else
      match getPowerLoopFuel dev fuel idx2 0 with
      | none => none
      | some (r, idx3, _) => (parseDec? r).map fun w => (1000 * w, idx3)

/-- The wire command of `CoboltLaser._set_power_mw`:
`b"@cobasp " + ("%.4f" % (mW / 1000.0))`. -/
def set_power_mw_command (mW : Rat) : Line :=
  "@cobasp ".data ++ format4 (mW / 1000)

/-- `CoboltLaser._do_set_power`: scale the 0..1 fraction by
`_max_power_mw` and delegate to `_set_power_mw`. -/
def do_set_power_command (power maxPowerMw : Rat) : Line :=
  set_power_mw_command (power * maxPowerMw)

/-- `CoboltLaser._do_get_power`: `_get_power_mw() / _max_power_mw`. -/
def do_get_power (dev : Nat → Line) (maxPowerMw : Rat) (fuel idx : Nat) :
    Option (Rat × Nat) :=
  (get_power_mw dev fuel idx).map fun pr => (pr.1 / maxPowerMw, pr.2)

end CoboltLaser

/-! ### Thorlabs filter wheel (`microscope/filterwheels/thorlabs.py`) -/

/-- Python `s.strip(cs)`: drop the characters of `cs` from both ends. -/
def stripSet (cs : Line) (s : Line) : Line :=
  ((s.dropWhile (fun c => cs.contains c)).reverse.dropWhile
    (fun c => cs.contains c)).reverse

/-- The characters Python `str.strip()` removes (ASCII whitespace). -/
def pyWhitespace : Line := [' ', '\t', '\n', '\r', '\x0b', '\x0c']

/-- Python `s.strip()`. -/
def pyStrip (s : Line) : Line := stripSet pyWhitespace s

namespace ThorlabsFilterWheel

/-- The `.strip("> \n\r")` applied to every line of the echo phase. -/
def echoStrip (s : Line) : Line := stripSet "> \n\r".data s

/-- The echo phase of `_send_command` over a trace of `_readline` results:
read and discard lines until one strips to the command or to the empty
string; an exhausted trace is the timeout (reads return `""`).  Returns
the lines remaining after the terminating read. -/
def echoLoop (command : Line) : List Line → List Line
  | [] => []
  | l :: rest =>
    if echoStrip l = command ∨ echoStrip l = [] then rest
    else echoLoop command rest

/-- `ThorlabsFilterWheel._send_command` over a trace of `_readline`
results: run the echo phase, then, only for a command ending in `?`, read
one further line and return it stripped; a non-query returns no value. -/
def send_command (command : Line) (lines : List Line) : Option Line :=
  let rest := echoLoop command lines
  if command.getLast? = some '?' then some (pyStrip (rest.headD [])) else none

/-- Echo phase as the claim describes it, also recording whether it ended
by a command match (`true`) or by an empty/timeout line (`false`). -/
def echoLoopEnded (command : Line) : List Line → Bool × List Line
  | [] => (false, [])
  | l :: rest =>
    if echoStrip l = command then (true, rest)
    else if echoStrip l = [] then (false, rest)
    else echoLoopEnded command rest

/-- Modelled from the claim's words (C5), for comparison with
`send_command`: when the echo phase ends with an empty line (timeout) the
attempt is aborted and no value is returned; only after a command match
does a query read one further line. -/
def send_command_claimed (command : Line) (lines : List Line) : Option Line :=
  let pr := echoLoopEnded command lines
  if pr.1 = false then none
  else if command.getLast? = some '?' then some (pyStrip (pr.2.headD [])) else none

/-- `ThorlabsFilterWheel._do_set_position`: the wire command
`"pos=%d" % (new_position + 1)` (device positions are 1-based). -/
def do_set_position_command (p : Nat) : Line :=
  "pos=".data ++ natToChars (p + 1)

/-- A device that faithfully stores the last set position: a `pos=`
command replaces the stored 1-based position with the numeral it carries. -/
def wheelStore (stored : Nat) (cmd : Line) : Nat :=
  if cmd.take 4 = "pos=".data then (parseNat? (cmd.drop 4)).getD stored else stored

/-- The faithful device's reply to `pos?`: its stored 1-based position. -/
def posReply (stored : Nat) : Line := natToChars stored

/-- `ThorlabsFilterWheel._do_get_position`: `int(reply) - 1` (device
positions are 1-based); `none` models the `ValueError` of `int()`. -/
def do_get_position (reply : Line) : Option Int :=
  (parseNat? reply).map fun n => (n : Int) - 1

end ThorlabsFilterWheel

namespace ThorlabsFilterWheelController

/-- The `position_table` class attribute: logical key to physical
position. -/
def position_table : List (Nat × Rat) :=
  [(1, 0), (2, 1 / 2), (3, 1), (4, 3 / 2), (5, 2), (6, 5 / 2)]

/-- `ThorlabsFilterWheelController._do_get_position`: returns
`self.channel.Position` unchanged — no table lookup, no error. -/
def do_get_position (channelPos : Rat) : Rat := channelPos

/-- Modelled from the spec's words (C7), for comparison with
`do_get_position`: reverse lookup of a physical value through
`position_table`, `none` when no entry matches exactly. -/
def reverse_lookup (v : Rat) : Option Nat :=
  (position_table.find? fun pr => decide (pr.2 = v)).map Prod.fst

end ThorlabsFilterWheelController

/-! ### Numeral helper lemmas -/

theorem digitsVal_snoc (b : Nat) (L : List Nat) (d : Nat) :
    digitsVal b (L ++ [d]) = digitsVal b L * b + d := by
  simp [digitsVal, List.foldl_append]

theorem digitsVal_reverse (b : Nat) (L : List Nat) :
    digitsVal b L.reverse = Nat.ofDigits b L := by
  induction L with
  | nil => simp [digitsVal, Nat.ofDigits_nil]
  | cons d L ih =>
    rw [List.reverse_cons, digitsVal_snoc, ih, Nat.ofDigits_cons]
    ring

theorem natToCharsAux_eq (b : Nat) (hb : 2 ≤ b) :
    ∀ fuel n, n ≤ fuel →
      natToCharsAux b fuel n = ((Nat.digits b n).map digitChar).reverse := by
  intro fuel
  induction fuel with
  | zero =>
    intro n hn
    have : n = 0 := Nat.le_zero.mp hn
    simp [this, natToCharsAux]
  | succ f ih =>
    intro n hn
    rw [natToCharsAux]
    by_cases h0 : n = 0
    · simp [h0]
    · rw [if_neg h0,
        Nat.digits_def' (by omega : 1 < b) (Nat.pos_of_ne_zero h0),
        List.map_cons, List.reverse_cons,
        ih (n / b) (by
          have : n / b < n := Nat.div_lt_self (Nat.pos_of_ne_zero h0) (by omega)
          omega)]

theorem decDigitVal?_digitChar {d : Nat} (h : d < 10) :
    decDigitVal? (digitChar d) = some d := by
  interval_cases d <;> rfl

theorem mapM_decDigit_map_digitChar (L : List Nat) (h : ∀ d ∈ L, d < 10) :
    (L.map digitChar).mapM decDigitVal? = some L := by
  induction L with
  | nil => rfl
  | cons d L ih =>
    rw [List.map_cons, List.mapM_cons, decDigitVal?_digitChar (h d (by simp)),
      ih (fun x hx => h x (by simp [hx]))]
    rfl

theorem parseNat?_natToChars (n : Nat) : parseNat? (natToChars n) = some n := by
  by_cases h0 : n = 0
  · subst h0; rfl
  · rw [natToChars, if_neg h0, natToCharsAux_eq 10 (by norm_num) n n le_rfl,
      parseNat?, if_neg (by
        simp [Nat.digits_ne_nil_iff_ne_zero.mpr h0]),
      ← List.map_reverse,
      mapM_decDigit_map_digitChar _ (fun d hd =>
        Nat.digits_lt_base (by norm_num) (List.mem_reverse.mp hd))]
    simp [digitsVal_reverse, Nat.ofDigits_digits]

/-! ### Claim theorems -/

/-- Claim C1: the spec demands `int(OperationMode(x)) == x` for every
pattern `x` over the defined bits, supplied as its hexadecimal wire
encoding.  The code fails this: `__init__` reads `digital_input_impedance`
from bit 11 while `__int__` writes it to bit 10, so the defined-bit
pattern `0x800` (hex string `"800"`) re-encodes to `0x400`. -/
theorem operationMode_roundtrip_drops_bit11 :
    parseHex? "800".data = some 0x800 ∧
    OverDefinedBits 0x800 ∧
    (OperationMode.ofNat 0x800).toInt = 0x400 ∧
    (0x400 : Nat) ≠ 0x800 := by
  refine ⟨rfl, ?_, rfl, by decide⟩
  intro pos h
  rcases eq_or_ne pos 11 with h11 | h11
  · simp [h11, operationModeDefinedBits]
  · rw [show (0x800 : Nat) = 2 ^ 11 by norm_num,
      Nat.testBit_two_pow_of_ne (Ne.symm h11)] at h
    exact absurd h (by simp)

/-- Claim C7: the spec demands that the controller's `get_position`
reverse-look-up the physical value through `position_table` and raise a
decode error on a miss.  The code's `_do_get_position` returns the raw
`channel.Position` unchanged (its own comment says the reverse lookup is
still missing): at physical value `0.7`, which matches no table entry,
it returns `0.7` and raises nothing. -/
theorem controller_get_position_returns_raw_value :
    ThorlabsFilterWheelController.do_get_position (7 / 10) = 7 / 10 ∧
    ThorlabsFilterWheelController.reverse_lookup (7 / 10) = none := by
  constructor
  · rfl
  · rw [ThorlabsFilterWheelController.reverse_lookup,
      ThorlabsFilterWheelController.position_table]
    norm_num [List.find?]

/-- Claim C5 counterexample: on the trace where the first read is the
empty line (timeout) and a value line follows, `_send_command` for the
query `pos?` does not abort the attempt: it still reads one further line
and returns it, while the claim's described behaviour returns no value. -/
theorem send_command_timeout_still_reads_value :
    ThorlabsFilterWheel.send_command "pos?".data [[], ['3']] = some ['3'] ∧
    ThorlabsFilterWheel.send_command_claimed "pos?".data [[], ['3']] = none :=
  ⟨rfl, rfl⟩

theorem echoLoop_append (cmd : Line) (pfx : List Line) (l : Line)
    (tail : List Line)
    (hpfx : ∀ x ∈ pfx,
      ThorlabsFilterWheel.echoStrip x ≠ cmd ∧ ThorlabsFilterWheel.echoStrip x ≠ [])
    (hl : ThorlabsFilterWheel.echoStrip l = cmd ∨ ThorlabsFilterWheel.echoStrip l = []) :
    ThorlabsFilterWheel.echoLoop cmd (pfx ++ l :: tail) = tail := by
  induction pfx with
  | nil => rw [List.nil_append, ThorlabsFilterWheel.echoLoop, if_pos hl]
  | cons x pfx ih =>
    rw [List.cons_append, ThorlabsFilterWheel.echoLoop, if_neg ?_]
    · exact ih fun y hy => hpfx y (by simp [hy])
    · obtain ⟨h1, h2⟩ := hpfx x (by simp)
      simp [h1, h2]

/-- Claim C5 amended: lines are read and discarded until one strips to the
echoed command or to the empty string (timeout); in BOTH cases, when the
command ends with `?`, exactly one further line is read and returned
(stripped) as the value — even after a timeout — and for a non-query
command no value is returned. -/
theorem send_command_echo_phase (cmd l v : Line) (pfx rest : List Line)
    (hpfx : ∀ x ∈ pfx,
      ThorlabsFilterWheel.echoStrip x ≠ cmd ∧ ThorlabsFilterWheel.echoStrip x ≠ [])
    (hl : ThorlabsFilterWheel.echoStrip l = cmd ∨ ThorlabsFilterWheel.echoStrip l = []) :
    ThorlabsFilterWheel.send_command cmd (pfx ++ l :: v :: rest) =
      if cmd.getLast? = some '?' then some (pyStrip v) else none := by
  rw [ThorlabsFilterWheel.send_command,
    echoLoop_append cmd pfx l (v :: rest) hpfx hl]
  rfl

/-- Witness for the amended claim C5 at a concrete trace: one noise line,
the echo of `pos?`, then the value line `3`, which is returned. -/
theorem send_command_echo_phase_witness :
    ThorlabsFilterWheel.send_command "pos?".data
      [['x'], "pos?".data, ['3'], ['9']] = some ['3'] := by
  have h := send_command_echo_phase "pos?".data "pos?".data ['3'] [['x']] [['9']]
    (by decide) (by decide)
  simpa using h

/-- Claim C6: `set_position p` sends the 1-based `pos=<p+1>` and
`get_position` subtracts 1 from the device's 1-based reply, so against a
device that faithfully stores the last set position the round trip
returns `p` for every logical `p` in `[0, N)`. -/
theorem thorlabs_set_get_roundtrip (p N stored : Nat) (hp : p < N) :
    ThorlabsFilterWheel.do_get_position
      (ThorlabsFilterWheel.posReply
        (ThorlabsFilterWheel.wheelStore stored
          (ThorlabsFilterWheel.do_set_position_command p))) = some (p : Int) := by
  have htake : List.take 4 ("pos=".data ++ natToChars (p + 1)) = "pos=".data :=
    List.take_left' rfl
  have hdrop : List.drop 4 ("pos=".data ++ natToChars (p + 1)) = natToChars (p + 1) :=
    List.drop_left' rfl
  have hstore : ThorlabsFilterWheel.wheelStore stored
      (ThorlabsFilterWheel.do_set_position_command p) = p + 1 := by
    rw [ThorlabsFilterWheel.wheelStore, ThorlabsFilterWheel.do_set_position_command,
      if_pos htake, hdrop, parseNat?_natToChars]
    rfl
  rw [hstore, ThorlabsFilterWheel.posReply, ThorlabsFilterWheel.do_get_position,
    parseNat?_natToChars]
  simp

/-- Witness for claim C6 at `p = 3` on a 6-position wheel with previously
stored device position 1. -/
theorem thorlabs_set_get_roundtrip_witness :
    ThorlabsFilterWheel.do_get_position
      (ThorlabsFilterWheel.posReply
        (ThorlabsFilterWheel.wheelStore 1
          (ThorlabsFilterWheel.do_set_position_command 3))) = some (3 : Int) :=
  thorlabs_set_get_roundtrip 3 6 1 (by decide)

/-- A concrete cached device state, used by the concrete instantiations. -/
def sampleState : LaserState where
  status := Status.ofNat 0
  operation_mode := OperationMode.ofNat 0
  temporal_power := 0
  laser_power := 0

/-- Claim C2: a line `_read` returns to the synchronous caller never
begins with `$`: the trace decomposes into a prefix of `$`-lines, each
consumed by `_process_adhoc` (applied to the cached state exactly once per
frame, in order), followed by the returned line — which is therefore the
first non-`$` line of the trace, unaffected by the async frames before
it. -/
theorem omicron_read_skips_async_frames (st st2 : LaserState)
    (lines rest : List Line) (line : Line)
    (h : OmicronLaser.read st lines = some (st2, line, rest)) :
    line ≠ [] ∧ line.head? ≠ some '$' ∧
    ∃ pfx, lines = pfx ++ line :: rest ∧
      (∀ l ∈ pfx, l.head? = some '$') ∧
      OmicronLaser.processMany st pfx = some st2 := by
  induction lines generalizing st with
  | nil => simp [OmicronLaser.read] at h
  | cons l ls ih =>
    simp only [OmicronLaser.read] at h
    cases hl : l.head? with
    | none => rw [hl] at h; simp at h
    | some c =>
      rw [hl] at h
      dsimp only at h
      by_cases hc : c = '$'
      · rw [if_pos hc] at h
        cases hp : OmicronLaser.process_adhoc st l with
        | none => rw [hp] at h; simp at h
        | some st3 =>
          rw [hp] at h
          simp only [Option.some_bind] at h
          obtain ⟨h1, h2, pfx, hdec, hall, hmany⟩ := ih st3 h
          refine ⟨h1, h2, l :: pfx, by rw [hdec, List.cons_append], ?_, ?_⟩
          · intro y hy
            rcases List.mem_cons.mp hy with rfl | hy'
            · rw [hl, hc]
            · exact hall y hy'
          · rw [OmicronLaser.processMany, List.foldlM_cons, hp]
            exact hmany
      · rw [if_neg hc] at h
        simp only [Option.some.injEq, Prod.mk.injEq] at h
        obtain ⟨hst, hline, hrest⟩ := h
        subst hst hline hrest
        refine ⟨?_, ?_, [], by simp, by simp, rfl⟩
        · intro hnil; rw [hnil] at hl; simp at hl
        · rw [hl]; simpa using hc

/-- Witness for claim C2: an async `$GAS` frame followed by a synchronous
reply; `_read` applies the frame to the cached status and returns the
reply. -/
theorem omicron_read_skips_async_frames_witness :
    "!GLP7\r".data ≠ [] ∧ "!GLP7\r".data.head? ≠ some '$' ∧
    ∃ pfx, ["$GAS2|\r".data, "!GLP7\r".data] = pfx ++ "!GLP7\r".data :: [] ∧
      (∀ l ∈ pfx, l.head? = some '$') ∧
      OmicronLaser.processMany sampleState pfx =
        some { sampleState with status := Status.ofNat 2 } :=
  omicron_read_skips_async_frames sampleState
    { sampleState with status := Status.ofNat 2 }
    ["$GAS2|\r".data, "!GLP7\r".data] [] "!GLP7\r".data rfl

theorem query_echo_aux :
    ∀ (n : Nat) (lines : List Line), lines.length ≤ n →
    ∀ (q : Line) (st st2 : LaserState) (raw : Line) (rest : List Line),
      OmicronLaser.query q st lines = some (st2, raw, rest) →
      (raw.drop 1).take 3 = q.take 3 := by
  intro n
  induction n with
  | zero =>
    intro lines hl q st st2 raw rest h
    have h0 : lines = [] := List.length_eq_zero.mp (Nat.le_zero.mp hl)
    subst h0
    rw [OmicronLaser.query.eq_def] at h
    simp [OmicronLaser.read] at h
  | succ m ih =>
    intro lines hl q st st2 raw rest h
    rw [OmicronLaser.query.eq_def] at h
    split at h
    · exact absurd h (by simp)
    · rename_i st3 raw3 rest3 hread
      split at h
      · rename_i hecho
        simp only [Option.some.injEq, Prod.mk.injEq] at h
        obtain ⟨-, h2, -⟩ := h
        rw [← h2]
        exact hecho
      · have hlen := OmicronLaser.read_length_lt st lines st3 raw3 rest3 hread
        exact ih rest3 (by omega) q st3 st2 raw rest h

/-- Claim C3: every reply `_query` returns has its 3-character echo
prefix (characters 1..3 of the raw reply) equal to the first 3 characters
of the issued query; a mismatching reply is never returned — `_query`
re-sends the same query instead. -/
theorem omicron_query_returns_matching_echo (q : Line) (st st2 : LaserState)
    (lines rest : List Line) (raw : Line)
    (h : OmicronLaser.query q st lines = some (st2, raw, rest)) :
    (raw.drop 1).take 3 = q.take 3 :=
  query_echo_aux lines.length lines le_rfl q st st2 raw rest h

/-- Witness for claim C3: a reply with the wrong echo (`XXX`) is consumed
by a retry and the reply with the matching `GLP` echo is returned. -/
theorem omicron_query_returns_matching_echo_witness :
    (("!GLP7\r".data : Line).drop 1).take 3 = ("GLP|".data : Line).take 3 := by
  have hr1 : OmicronLaser.read sampleState ["!XXX0\r".data, "!GLP7\r".data] =
      some (sampleState, "!XXX0\r".data, ["!GLP7\r".data]) := rfl
  have hr2 : OmicronLaser.read sampleState ["!GLP7\r".data] =
      some (sampleState, "!GLP7\r".data, []) := rfl
  have h : OmicronLaser.query "GLP|".data sampleState
      ["!XXX0\r".data, "!GLP7\r".data] = some (sampleState, "!GLP7\r".data, []) := by
    rw [OmicronLaser.query.eq_def, hr1]
    dsimp only
    rw [if_neg (by decide), OmicronLaser.query.eq_def, hr2]
    dsimp only
    rw [if_pos (by decide)]
  exact omicron_query_returns_matching_echo "GLP|".data sampleState sampleState
    ["!XXX0\r".data, "!GLP7\r".data] [] "!GLP7\r".data h

theorem adhoc_decompose (tag body : Line) (h4 : tag.length = 4) :
    (tag ++ body ++ ['\r']).dropLast.take 4 = tag ∧
    (tag ++ body ++ ['\r']).dropLast.drop 4 = body := by
  have hd : (tag ++ body ++ ['\r']).dropLast = tag ++ body :=
    List.dropLast_concat
  rw [hd]
  exact ⟨List.take_left' h4, List.drop_left' h4⟩

/-- Claim C8: an ad-hoc frame updates exactly the one cached field its
4-character tag selects and no other: `$GAS` only `status`, `$GOM` only
`operation_mode`, `$TPP` only `temporal_power`, `$MDP` only
`_laser_power`; a frame with any other tag updates no cached field. -/
theorem adhoc_frame_updates_exactly_one_field (st : LaserState) (body : Line) :
    (∀ n, parseHex? (OmicronLaser.adhocContent body) = some n →
      OmicronLaser.process_adhoc st ("$GAS".data ++ body ++ ['\r']) =
        some { st with status := Status.ofNat n }) ∧
    (∀ n, parseHex? (OmicronLaser.adhocContent body) = some n →
      OmicronLaser.process_adhoc st ("$GOM".data ++ body ++ ['\r']) =
        some { st with operation_mode := OperationMode.ofNat n }) ∧
    (∀ p, parseDec? (OmicronLaser.adhocContent body) = some p →
      OmicronLaser.process_adhoc st ("$TPP".data ++ body ++ ['\r']) =
        some { st with temporal_power := p }) ∧
    (∀ p, parseDec? (OmicronLaser.adhocContent body) = some p →
      OmicronLaser.process_adhoc st ("$MDP".data ++ body ++ ['\r']) =
        some { st with laser_power := p }) ∧
    (∀ raw : Line,
      raw.dropLast.take 4 ∉
        (["$GAS".data, "$GOM".data, "$TPP".data, "$MDP".data] : List Line) →
      OmicronLaser.process_adhoc st raw = some st) := by
  refine ⟨?_, ?_, ?_, ?_, ?_⟩
  · intro n hn
    have hds := adhoc_decompose "$GAS".data body rfl
    simp only [OmicronLaser.process_adhoc] at hds ⊢
    rw [hds.1, hds.2, if_pos rfl, Status.ofHex, hn]
    rfl
  · intro n hn
    have hds := adhoc_decompose "$GOM".data body rfl
    simp only [OmicronLaser.process_adhoc] at hds ⊢
    rw [hds.1, hds.2, if_neg (by decide), if_pos rfl, OperationMode.ofHex, hn]
    rfl
  · intro p hp
    have hds := adhoc_decompose "$TPP".data body rfl
    simp only [OmicronLaser.process_adhoc] at hds ⊢
    rw [hds.1, hds.2, if_neg (by decide), if_neg (by decide), if_pos rfl, hp]
    rfl
  · intro p hp
    have hds := adhoc_decompose "$MDP".data body rfl
    simp only [OmicronLaser.process_adhoc] at hds ⊢
    rw [hds.1, hds.2, if_neg (by decide), if_neg (by decide), if_neg (by decide),
      if_pos rfl, hp]
    rfl
  · intro raw hraw
    simp only [List.mem_cons, List.not_mem_nil, or_false, not_or] at hraw
    obtain ⟨n1, n2, n3, n4⟩ := hraw
    simp only [OmicronLaser.process_adhoc]
    rw [if_neg n1, if_neg n2, if_neg n3, if_neg n4]

/-- Witness for claim C8: a `$GAS` frame updates only the cached status, a
`$TPP` frame updates only the cached temporal power, and a frame with the
unknown tag `$GWH` leaves the cached state unchanged. -/
theorem adhoc_frame_updates_exactly_one_field_witness :
    OmicronLaser.process_adhoc sampleState ("$GAS".data ++ ['2'] ++ ['\r']) =
      some { sampleState with status := Status.ofNat 2 } ∧
    OmicronLaser.process_adhoc sampleState ("$TPP".data ++ ['2'] ++ ['\r']) =
      some { sampleState with temporal_power := ((2 : Nat) : Rat) } ∧
    OmicronLaser.process_adhoc sampleState "$GWH99|\r".data = some sampleState :=
  ⟨(adhoc_frame_updates_exactly_one_field sampleState ['2']).1 2 rfl,
   (adhoc_frame_updates_exactly_one_field sampleState ['2']).2.2.1
     ((2 : Nat) : Rat) rfl,
   (adhoc_frame_updates_exactly_one_field sampleState ['9']).2.2.2.2
     "$GWH99|\r".data (by decide)⟩

theorem sendFuel_const_empty (fuel idx writes : Nat) :
    CoboltLaser.sendFuel "pa?".data (fun _ => []) fuel idx writes = none := by
  induction fuel generalizing idx writes with
  | zero => rfl
  | succ f ih =>
    rw [CoboltLaser.sendFuel]
    rw [if_neg (by decide), if_neg (by simp)]
    exact ih (idx + 1) (writes + 1)

theorem getPowerLoop_const_one (fuel idx writes : Nat) :
    CoboltLaser.getPowerLoopFuel (fun _ => "1".data) fuel idx writes = none := by
  induction fuel generalizing idx writes with
  | zero => rfl
  | succ f ih =>
    rw [CoboltLaser.getPowerLoopFuel]
    have hs : CoboltLaser.sendFuel "pa?".data (fun _ => "1".data) (f + 1) idx 0 =
        some ("1".data, idx + 1, 0 + 1) := by
      rw [CoboltLaser.sendFuel, if_neg (by decide), if_pos (by decide)]
    rw [hs]
    dsimp only
    rw [if_neg (by simp)]
    exact ih (idx + 1) (writes + (0 + 1))

/-- Claim C4 counterexample: against a device that keeps returning the
busy sentinel `b"1"` to `pa?` (or keeps returning the empty reply), the
`while not success` retry loops of `_get_power_mw` and `send` never
terminate — no amount of fuel makes them succeed — contradicting the
claim's "the retry loop terminates rather than busy-looping unboundedly
against a device that keeps returning the sentinel". -/
theorem cobolt_sentinel_retry_unbounded :
    ¬ CoboltLaser.GetPowerLoopTerminates (fun _ => "1".data) 0 ∧
    ¬ CoboltLaser.SendTerminates "pa?".data (fun _ => []) 0 := by
  constructor
  · rintro ⟨fuel, hf⟩
    rw [getPowerLoop_const_one] at hf
    simp at hf
  · rintro ⟨fuel, hf⟩
    rw [sendFuel_const_empty] at hf
    simp at hf

/-- Claim C4 amended: an empty reply to a query in `send`, or the busy
sentinel `b"1"` in `_get_power_mw`, triggers a retry of the whole
exchange; given a device that answers after one bad reply, exactly one
retry occurs (two writes in total) and the loop terminates — but the
retry is not bounded: against a device that keeps returning the sentinel
the loop never terminates (see the counterexample). -/
theorem cobolt_one_bad_reply_single_retry (dev : Nat → Line) (cmd : Line)
    (idx fuel : Nat) (hfuel : 2 ≤ fuel) :
    (cmd.getLast? = some '?' → dev idx = [] → dev (idx + 1) ≠ [] →
      CoboltLaser.sendFuel cmd dev fuel idx 0 = some (dev (idx + 1), idx + 2, 2)) ∧
    (dev idx = "1".data → dev (idx + 1) ≠ [] → dev (idx + 1) ≠ "1".data →
      CoboltLaser.getPowerLoopFuel dev fuel idx 0 = some (dev (idx + 1), idx + 2, 2)) := by
  obtain ⟨k, hk⟩ := Nat.exists_eq_add_of_le hfuel
  have hk2 : fuel = k + 1 + 1 := by omega
  subst hk2
  constructor
  · intro hq h0 h1
    rw [CoboltLaser.sendFuel]
    rw [if_neg (by simp [hq]), if_neg (by simp [h0])]
    rw [CoboltLaser.sendFuel]
    rw [if_neg (by simp [hq]), if_pos h1]
  · intro h1 h2 h3
    rw [CoboltLaser.getPowerLoopFuel]
    have hs1 : CoboltLaser.sendFuel "pa?".data dev (k + 1 + 1) idx 0 =
        some (dev idx, idx + 1, 0 + 1) := by
      rw [CoboltLaser.sendFuel, if_neg (by decide), if_pos (by simp [h1])]
    rw [hs1]
    dsimp only
    rw [if_neg (by simp [h1])]
    rw [CoboltLaser.getPowerLoopFuel]
    have hs2 : CoboltLaser.sendFuel "pa?".data dev (k + 1) idx 0 = _ := rfl
    have hs3 : CoboltLaser.sendFuel "pa?".data dev (k + 1) (idx + 1) 0 =
        some (dev (idx + 1), idx + 1 + 1, 0 + 1) := by
      rw [CoboltLaser.sendFuel, if_neg (by decide), if_pos (by simp [h2])]
    rw [hs3]
    dsimp only
    rw [if_pos (by simp [h3])]

/-- Witness for the amended claim C4: a device whose first reply is bad
(empty for `send`, the sentinel `1` for the power loop) and whose second
reply `5` is good; both loops return the good reply after exactly one
retry, i.e. two writes. -/
theorem cobolt_one_bad_reply_single_retry_witness :
    CoboltLaser.sendFuel "pa?".data (fun i => if i = 0 then [] else ['5']) 2 0 0 =
      some (['5'], 2, 2) ∧
    CoboltLaser.getPowerLoopFuel (fun i => if i = 0 then "1".data else ['5']) 2 0 0 =
      some (['5'], 2, 2) := by
  constructor
  · exact (cobolt_one_bad_reply_single_retry
      (fun i => if i = 0 then [] else ['5']) "pa?".data 0 2 le_rfl).1
      rfl rfl (by decide)
  · exact (cobolt_one_bad_reply_single_retry
      (fun i => if i = 0 then "1".data else ['5']) "pa?".data 0 2 le_rfl).2
      rfl (by decide) (by decide)

/-! ### Power formatting and the Cobolt power round trip -/

theorem pyInt_eq_floor (q : Rat) (h : 0 ≤ q) : OmicronLaser.pyInt q = ⌊q⌋ := by
  rw [OmicronLaser.pyInt, Rat.floor_def]
  exact Int.tdiv_eq_ediv (Rat.num_nonneg.mpr h) (Int.natCast_nonneg q.den)

theorem roundHalfEven_natCast (n : Nat) : roundHalfEven ((n : Nat) : Rat) = n := by
  rw [roundHalfEven, Int.fract_natCast, if_pos (by norm_num)]
  exact Int.floor_natCast n

theorem format4_eq_of_natCast (q : Rat) (n : Nat) (h : q * 10000 = (n : Rat)) :
    format4 q = natToChars (n / 10000) ++ ['.'] ++ zeroPad4 (natToChars (n % 10000)) := by
  simp only [format4, h, roundHalfEven_natCast, Int.toNat_natCast]

/-- Claim C9: on a Cobolt laser with `_max_power_mw = 120`, `set_power
0.5` issues the wire command `@cobasp 0.0600` (half of 120 mW, converted
to W and formatted to four decimals); and with the laser on (`l?` answers
`1`) and the device reporting the set power `0.0600` W to `pa?`,
`_do_get_power` returns exactly `0.5`. -/
theorem cobolt_half_power_roundtrip :
    CoboltLaser.do_set_power_command (1 / 2) 120 = "@cobasp 0.0600".data ∧
    CoboltLaser.do_get_power (fun i => if i = 0 then "1".data else "0.0600".data)
      120 2 0 = some (1 / 2, 2) := by
  constructor
  · rw [CoboltLaser.do_set_power_command, CoboltLaser.set_power_mw_command,
      format4_eq_of_natCast (1 / 2 * 120 / 1000) 600 (by norm_num)]
    rfl
  · have h1 : CoboltLaser.do_get_power
        (fun i => if i = 0 then "1".data else "0.0600".data) 120 2 0 =
        some (1000 * (((0 : Nat) : Rat) + ((600 : Nat) : Rat) / (10 : Rat) ^ 4) / 120, 2) :=
      rfl
    rw [h1]
    norm_num

/-! ### Omicron `set_level_power` (claim C10) -/

/-- Claim C10 counterexample: the claim asserts that for EVERY power
above 1.0 the computed level `int(power * 0xFFF)` exceeds 0xFFF; at
`power = 4097/4096` (an exactly representable float slightly above 1) the
level is exactly 0xFFF = 4095, which does not exceed it. -/
theorem set_level_power_level_at_slightly_above_one :
    (1 : Rat) < 4097 / 4096 ∧
    (OmicronLaser.set_level_power (4097 / 4096)).level = 4095 ∧
    ¬ (4095 : Int) > 0xFFF := by
  refine ⟨by norm_num, ?_, by norm_num⟩
  have h0 : (0 : Rat) ≤ 4097 / 4096 * 4095 := by norm_num
  have hlvl : (OmicronLaser.set_level_power (4097 / 4096)).level =
      OmicronLaser.pyInt (4097 / 4096 * 4095) := rfl
  rw [hlvl, pyInt_eq_floor _ h0]
  rw [Int.floor_eq_iff]
  constructor <;> norm_num

/-- Claim C10 amended: `set_level_power` does not reject an out-of-range
power: for every `power > 1.0` it only logs the error, computes
`level = int(power * 0xFFF)` — which is at least 0xFFF, and strictly
exceeds 0xFFF whenever `power ≥ 4096/4095` — and issues the SLP command
with that unclamped level, raising no exception. -/
theorem set_level_power_does_not_reject (power : Rat) (h : 1 < power) :
    (OmicronLaser.set_level_power power).logged_error = true ∧
    (OmicronLaser.set_level_power power).level = ⌊power * 4095⌋ ∧
    4095 ≤ (OmicronLaser.set_level_power power).level ∧
    ((4096 / 4095 : Rat) ≤ power → 4096 ≤ (OmicronLaser.set_level_power power).level) ∧
    (OmicronLaser.set_level_power power).wire =
      "?SLP".data ++
        natToHexChars (OmicronLaser.set_level_power power).level.toNat ++
        "|\r".data := by
  have hpos : (0 : Rat) ≤ power := le_of_lt (lt_trans zero_lt_one h)
  have hq : (0 : Rat) ≤ power * 4095 := mul_nonneg hpos (by norm_num)
  have hfloor : (OmicronLaser.set_level_power power).level = ⌊power * 4095⌋ := by
    have : (OmicronLaser.set_level_power power).level =
        OmicronLaser.pyInt (power * 4095) := rfl
    rw [this, pyInt_eq_floor _ hq]
  refine ⟨by simp [OmicronLaser.set_level_power, h], hfloor, ?_, ?_, rfl⟩
  · rw [hfloor]
    refine Int.le_floor.mpr ?_
    push_cast
    nlinarith
  · intro hge
    rw [hfloor]
    refine Int.le_floor.mpr ?_
    push_cast
    nlinarith

/-- Witness for the amended claim C10 at `power = 2`: the error is only
logged and the level, `int(2 * 0xFFF)`, is at least 0xFFF. -/
theorem set_level_power_does_not_reject_witness :
    (OmicronLaser.set_level_power 2).logged_error = true ∧
    4095 ≤ (OmicronLaser.set_level_power 2).level :=
  ⟨(set_level_power_does_not_reject 2 (by norm_num)).1,
   (set_level_power_does_not_reject 2 (by norm_num)).2.2.1⟩

end Microscope
